import Mathlib

set_option linter.unusedVariables false
set_option linter.unnecessarySeqFocus false

/-!
Verification development for the shenlun_assistant gateway.

The repository ships the mini-program client (`miniprogram/pages/index/index.js`
and an ad-enabled variant of the same page), the backend start script and the
backend documentation.  The backend core itself (admission controller, response
cache, retrieval engine, gateway orchestrator) is described by the specification
but its Python source is not part of the source tree here, so those components
are modelled from the spec; the client page is embedded directly from its
JavaScript source.
-/

namespace Shenlun

/-! ### Admission controller (spec §4.1) -/

/-- Modelled from the spec: rejection reasons of the Admission Controller
(`RateLimited` from the sliding-window rate gate, `ConcurrencyExceeded` from the
bounded counting semaphore).  The backend module implementing the controller is
not in the source tree. -/
inductive RejectReason where
  | RateLimited
  | ConcurrencyExceeded
deriving DecidableEq, Repr

/-- Modelled from the spec: result of `try_acquire`:
`Admitted | Rejected(reason)`. -/
inductive AcquireResult where
  | Admitted
  | Rejected (reason : RejectReason)
deriving DecidableEq, Repr

/-- Modelled from the spec: admission configuration.  Defaults
(`MAX_CONCURRENT_REQUESTS` 10, `RATE_LIMIT_PER_MINUTE` 60) are stated in
`backend/start.sh` (`show_help`) and in the spec. -/
structure AdmissionConfig where
  max_concurrent_requests : Nat
  rate_limit_per_minute : Nat
deriving DecidableEq, Repr

/-- The documented default admission configuration. -/
def defaultAdmissionConfig : AdmissionConfig :=
  { max_concurrent_requests := 10, rate_limit_per_minute := 60 }

/-- Modelled from the spec: admission state: `in_flight_count` (≥ 0 by the
`Nat` carrier) and `window_counts`, an ordered sequence of
(timestamp-in-seconds, count) buckets covering the trailing 60 seconds. -/
structure AdmissionState where
  in_flight_count : Nat
  window_counts : List (Nat × Nat)
deriving DecidableEq, Repr

/-- Admission state at process start. -/
def initialAdmissionState : AdmissionState := ⟨0, []⟩

/-- Modelled from the spec: expire buckets older than 60 seconds; a bucket
stamped `t` is still inside the trailing window at time `now` iff
`now < t + 60`. -/
def pruneWindow (now : Nat) (w : List (Nat × Nat)) : List (Nat × Nat) :=
  w.filter (fun b => decide (now < b.1 + 60))

/-- Summed count of the trailing 60-second window at time `now`. -/
def windowSum (now : Nat) (w : List (Nat × Nat)) : Nat :=
  ((pruneWindow now w).map Prod.snd).sum

/-- Modelled from the spec: `try_acquire`.  Buckets older than 60 seconds are
expired on each check; the rate gate fails with `RateLimited` when the summed
window count is at or above `rate_limit_per_minute`; the concurrency gate fails
non-blocking with `ConcurrencyExceeded` when the semaphore is saturated;
successful acquisition increments both the in-flight counter and the window. -/
def try_acquire (cfg : AdmissionConfig) (now : Nat) (s : AdmissionState) :
    AcquireResult × AdmissionState :=
  let w := pruneWindow now s.window_counts
  if cfg.rate_limit_per_minute ≤ (w.map Prod.snd).sum then
    (.Rejected .RateLimited, { s with window_counts := w })
  else if cfg.max_concurrent_requests ≤ s.in_flight_count then
    (.Rejected .ConcurrencyExceeded, { s with window_counts := w })
  else
    (.Admitted,
      { in_flight_count := s.in_flight_count + 1, window_counts := w ++ [(now, 1)] })

/-- Modelled from the spec: `release()` decrements only the concurrency
counter; rate-window counts are not released, they expire naturally. -/
def release (s : AdmissionState) : AdmissionState :=
  { s with in_flight_count := s.in_flight_count - 1 }

/-- `n` concurrent (same-instant) bare `try_acquire` attempts, returning the
result of each attempt in order together with the final admission state. -/
def attempts (cfg : AdmissionConfig) (now : Nat) (s : AdmissionState) :
    Nat → List AcquireResult × AdmissionState
  | 0 => ([], s)
  | n + 1 =>
    let p := try_acquire cfg now s
    let q := attempts cfg now p.2 n
    (p.1 :: q.1, q.2)

/-- One full request as seen by the Admission Controller: `try_acquire`, and,
exactly when admission succeeded, the matching `release` once the request
completes (spec §4.1: `release()` is called exactly once per successful
`try_acquire`). -/
def requestCycle (cfg : AdmissionConfig) (now : Nat) (s : AdmissionState) :
    AcquireResult × AdmissionState :=
  let p := try_acquire cfg now s
  match p.1 with
  | .Admitted => (p.1, release p.2)
  | .Rejected r => (.Rejected r, p.2)

/-- A sequence of requests issued at the given timestamps (in seconds). -/
def runCycles (cfg : AdmissionConfig) (s : AdmissionState) :
    List Nat → List AcquireResult × AdmissionState
  | [] => ([], s)
  | t :: ts =>
    let p := requestCycle cfg t s
    let q := runCycles cfg p.2 ts
    (p.1 :: q.1, q.2)

/-- Abstraction of the admission state reachable by same-instant attempts:
`i` requests in flight, the whole window inside the trailing 60 seconds, and
the window summing to `i`. -/
def Steady (now i : Nat) (s : AdmissionState) : Prop :=
  s.in_flight_count = i ∧ pruneWindow now s.window_counts = s.window_counts
    ∧ (s.window_counts.map Prod.snd).sum = i

/-! ### Whitespace trimming

JavaScript's `String.prototype.trim` (used by the client page) and the prompt
normalization of the gateway drop whitespace from both ends of a string; it is
embedded as an executable function on the character list, over the exact
character set ECMAScript defines. -/

/-- The character set stripped by JavaScript `String.prototype.trim`:
ECMAScript WhiteSpace — tab U+0009, vertical tab U+000B, form feed U+000C,
space U+0020, no-break space U+00A0, zero-width no-break space U+FEFF, and the
Unicode space separators (category Zs: U+0020, U+00A0, U+1680, U+2000–U+200A,
U+202F, U+205F, U+3000) — together with the LineTerminator characters: line
feed U+000A, carriage return U+000D, line separator U+2028 and paragraph
separator U+2029. -/
def jsWhitespaceChar (c : Char) : Bool :=
  c == '\t' || c == '\n' || c == '\u000B' || c == '\u000C' || c == '\r'
    || c == ' ' || c == '\u00A0' || c == '\u1680'
    || (decide (0x2000 ≤ c.toNat) && decide (c.toNat ≤ 0x200A))
    || c == '\u2028' || c == '\u2029' || c == '\u202F' || c == '\u205F'
    || c == '\u3000' || c == '\uFEFF'

/-- Drop the characters JavaScript `String.prototype.trim` strips from both
ends of a string. -/
def jsTrim (s : String) : String :=
  ⟨((s.data.dropWhile jsWhitespaceChar).reverse.dropWhile jsWhitespaceChar).reverse⟩

/-! ### Response cache (spec §4.2) -/

/-- Modelled from the spec: cache configuration.  Defaults
(`CACHE_TTL_SECONDS` 300, `MAX_CACHE_SIZE` 100) are stated in
`backend/DEPLOYMENT.md` and in the spec.  The backend cache module is not in
the source tree. -/
structure CacheConfig where
  cache_ttl_seconds : Nat
  max_cache_size : Nat
deriving DecidableEq, Repr

/-- The documented default cache configuration. -/
def defaultCacheConfig : CacheConfig :=
  { cache_ttl_seconds := 300, max_cache_size := 100 }

/-- Modelled from the spec: a cache entry `{key, value, created_at}` with the
TTL counted from `created_at`. -/
structure CacheEntry where
  key : String
  value : String
  created_at : Nat
deriving DecidableEq, Repr

/-- Modelled from the spec: the Response Cache, its entries kept in recency
order, most recently used first (recency is updated on both `get` hits and
`put`, so the least-recently-used entry is the last one). -/
structure ResponseCache where
  entries : List CacheEntry
deriving DecidableEq, Repr

/-- The empty cache. -/
def emptyCache : ResponseCache := ⟨[]⟩

/-- Drop every entry stored under key `k` (the cache keeps at most one live
entry per key, so this removes the one live entry when present). -/
def removeKey (k : String) (es : List CacheEntry) : List CacheEntry :=
  es.filter (fun e => !(e.key == k))

/-- Modelled from the spec: `get(key)`.  An entry past its TTL is treated as a
miss and removed (lazy expiry); a hit moves the entry to the front of the
recency order and returns its value. -/
def cacheGet (cfg : CacheConfig) (now : Nat) (c : ResponseCache) (k : String) :
    Option String × ResponseCache :=
  match c.entries.find? (fun e => e.key == k) with
  | none => (none, c)
  | some e =>
    if e.created_at + cfg.cache_ttl_seconds ≤ now then
      (none, ⟨removeKey k c.entries⟩)
    else
      (some e.value, ⟨e :: removeKey k c.entries⟩)

/-- Modelled from the spec: `put(key, value)`.  The new entry becomes the most
recently used one; at most one live entry per key; when the capacity
`max_cache_size` is exceeded the least-recently-used (last) entry is
evicted. -/
def cachePut (cfg : CacheConfig) (now : Nat) (c : ResponseCache) (k v : String) :
    ResponseCache :=
  ⟨(⟨k, v, now⟩ :: removeKey k c.entries).take cfg.max_cache_size⟩

/-! ### Encoder and similarity index (spec §4.3) -/

/-- Modelled from the spec: a scored search result `(doc_id, score)`. -/
structure ScoredDoc where
  doc_id : String
  score : ℚ
deriving DecidableEq, Repr

/-- Search result order as a Boolean comparator: descending by score, ties
broken by ascending document id (spec §4.3, determinism of `search`). -/
def searchLE (a b : ScoredDoc) : Bool :=
  decide (b.score < a.score) ||
    (decide (a.score = b.score) && decide (a.doc_id ≤ b.doc_id))

/-- Search result order as a relation: `a` comes no later than `b` when `a`
scores strictly higher, or the scores tie and `a`'s document id is ≤ `b`'s. -/
def SearchOrder (a b : ScoredDoc) : Prop :=
  b.score < a.score ∨ (a.score = b.score ∧ a.doc_id ≤ b.doc_id)

/-- Modelled from the spec: `search(query_representation, top_k, min_score)`
over a similarity index holding one representation per document id.  The
active encoder enters only through the similarity function `sim`: every stored
representation is scored against the query, results below `min_score` are
excluded, the rest are sorted descending by score with ties broken by document
id, and at most `top_k` results are returned. -/
def search {ρ : Type} (sim : ρ → ρ → ℚ) (index : List (String × ρ))
    (q : ρ) (top_k : Nat) (min_score : ℚ) : List ScoredDoc :=
  (((index.map (fun d => ScoredDoc.mk d.1 (sim q d.2))).filter
      (fun d => decide (min_score ≤ d.score))).mergeSort searchLE).take top_k

/-! ### Encoder selection at startup (spec §4.3, capability probe) -/

/-- Modelled from the spec: the two encoder variants; the Vector Encoder
(sentence-transformers + FAISS, `backend/KNOWLEDGE_BASE_README.md` "完整模式")
and the Lexical Encoder (text matching, "轻量模式"). -/
inductive EncoderKind where
  | vector
  | lexical
deriving DecidableEq, Repr

/-- Modelled from the spec: process-lifetime state fixed by the startup
capability probe: which encoder is active, how many times the degradation has
been logged, and how many times the construction probe has been attempted. -/
structure ProcessState where
  encoder : EncoderKind
  degradation_log_count : Nat
  probe_attempts : Nat
deriving DecidableEq, Repr

/-- Modelled from the spec: at initialization attempt to construct the Vector
Encoder once; on failure fall back permanently to the Lexical Encoder and log
the degradation once. -/
def startupSelectEncoder (probe_ok : Bool) : ProcessState :=
  if probe_ok then ⟨.vector, 0, 1⟩ else ⟨.lexical, 1, 1⟩

/-- Modelled from the spec: serving one request uses the encoder selected at
startup and never re-runs the probe nor re-logs the degradation. -/
def serveRequest (s : ProcessState) : EncoderKind × ProcessState :=
  (s.encoder, s)

/-- Serve `n` requests in sequence, recording the encoder used by each. -/
def serveRequests (s : ProcessState) : Nat → List EncoderKind × ProcessState
  | 0 => ([], s)
  | n + 1 =>
    let p := serveRequest s
    let q := serveRequests p.2 n
    (p.1 :: q.1, q.2)

/-! ### Gateway orchestrator (spec §4.5, §5, §7) -/

/-- Modelled from the spec: the error taxonomy of §7 that the gateway core can
return to a caller. -/
inductive ChatError where
  | ValidationError (reason : String)
  | RateLimited
  | ConcurrencyExceeded
  | UpstreamTimeout
  | UpstreamError
deriving DecidableEq, Repr

/-- Modelled from the spec: gateway configuration; `response_timeout_seconds`
defaults to 60 (spec §5: the external completion call is bounded by a request
timeout, default 60s). -/
structure GatewayConfig where
  admission : AdmissionConfig
  cache : CacheConfig
  response_timeout_seconds : Nat
deriving DecidableEq, Repr

/-- The documented default gateway configuration. -/
def defaultGatewayConfig : GatewayConfig :=
  { admission := defaultAdmissionConfig, cache := defaultCacheConfig,
    response_timeout_seconds := 60 }

/-- Process-wide mutable state touched by `handle_chat`. -/
structure GatewayState where
  admission : AdmissionState
  cache : ResponseCache
deriving DecidableEq, Repr

/-- Which stages of the per-request state machine actually ran; used to state
that validation failures short-circuit before any admission check, retrieval
or upstream work. -/
structure RequestTrace where
  admission_checked : Bool
  retrieval_performed : Bool
  upstream_called : Bool
deriving DecidableEq, Repr

/-- The trace of a request on which no work was performed. -/
def noWorkTrace : RequestTrace := ⟨false, false, false⟩

/-- Modelled from the spec: one upstream completion call as observed at the
boundary: how long the external LLM takes (seconds) and whether it completes
with text or fails. -/
inductive UpstreamBehavior where
  | completes (duration_s : Nat) (text : String)
  | fails (duration_s : Nat)
deriving DecidableEq, Repr

/-- Wall-clock duration of the upstream call. -/
def UpstreamBehavior.duration : UpstreamBehavior → Nat
  | .completes d _ => d
  | .fails d => d

/-- Modelled from the spec: the upstream call under a hard timeout: when the
call exceeds `timeout_s` the request fails with `UpstreamTimeout`; a
non-timeout failure is `UpstreamError`. -/
def callUpstream (timeout_s : Nat) (u : UpstreamBehavior) : Except ChatError String :=
  match u with
  | .completes d text => if timeout_s < d then .error .UpstreamTimeout else .ok text
  | .fails d => if timeout_s < d then .error .UpstreamTimeout else .error .UpstreamError

/-- Modelled from the spec: the cache key is a stable function of the
normalized (trimmed) prompt. -/
def cacheKey (prompt : String) : String := jsTrim prompt

/-- Modelled from the spec: `handle_chat(prompt) → response | structured
error` for a single request at time `now`: validation (empty/missing prompt is
rejected before admission) → admission (`try_acquire`, either gate may
reject) → cache lookup (hit short-circuits and releases) → upstream call under
the hard timeout → cache store on success only → release.  The Python gateway
module is not in the source tree. -/
def handle_chat (cfg : GatewayConfig) (now : Nat) (u : UpstreamBehavior)
    (st : GatewayState) (prompt : Option String) :
    Except ChatError String × GatewayState × RequestTrace :=
  match prompt with
  | none => (.error (.ValidationError "请输入题目内容"), st, noWorkTrace)
  | some p =>
    if jsTrim p = "" then
      (.error (.ValidationError "请输入题目内容"), st, noWorkTrace)
    else
      let a := try_acquire cfg.admission now st.admission
      match a.1 with
      | .Rejected .RateLimited =>
          (.error .RateLimited, ⟨a.2, st.cache⟩, ⟨true, false, false⟩)
      | .Rejected .ConcurrencyExceeded =>
          (.error .ConcurrencyExceeded, ⟨a.2, st.cache⟩, ⟨true, false, false⟩)
      | .Admitted =>
          let g := cacheGet cfg.cache now st.cache (cacheKey p)
          match g.1 with
          | some v => (.ok v, ⟨release a.2, g.2⟩, ⟨true, false, false⟩)
          | none =>
            match callUpstream cfg.response_timeout_seconds u with
            | .ok text =>
                (.ok text,
                  ⟨release a.2, cachePut cfg.cache now g.2 (cacheKey p) text⟩,
                  ⟨true, true, true⟩)
            | .error e => (.error e, ⟨release a.2, g.2⟩, ⟨true, true, true⟩)

/-! ### Mini-program client page (from `miniprogram/pages/index/index.js` and
its ad-enabled variant, `src/unnamed/part_000`) -/

/-- One hexadecimal digit, lower case, as produced by JavaScript string
escaping. -/
def hexDigit (n : Nat) : Char :=
  if n < 10 then Char.ofNat (48 + n) else Char.ofNat (87 + n)

/-- Four-digit hexadecimal rendering of a code point below `0x10000`. -/
def hex4 (n : Nat) : String :=
  String.mk [hexDigit (n / 4096 % 16), hexDigit (n / 256 % 16),
    hexDigit (n / 16 % 16), hexDigit (n % 16)]

/-- `JSON.stringify` escaping of one character of a string literal. -/
def jsonEscapeChar (c : Char) : String :=
  if c = '"' then "\\\""
  else if c = '\\' then "\\\\"
  else if c = '\n' then "\\n"
  else if c = '\r' then "\\r"
  else if c = '\t' then "\\t"
  else if c = '\x08' then "\\b"
  else if c = '\x0c' then "\\f"
  else if c.toNat < 32 then "\\u" ++ hex4 c.toNat
  else String.singleton c

/-- `JSON.stringify` of a string value. -/
def jsonString (s : String) : String :=
  "\"" ++ String.join (s.data.map jsonEscapeChar) ++ "\""

/-- `JSON.stringify` of the request payload built in `submitContent` /
`sendRequest`: the object with field `题目` holding the question and field
`答案` holding the answer string or `null`. -/
def stringifyPayload (question : String) (answer : Option String) : String :=
  "\x7b\"题目\":" ++ jsonString question ++ ",\"答案\":" ++
    (match answer with
     | some a => jsonString a
     | none => "null") ++ "\x7d"

/-- The `wx.request` call issued by the page, by its observable fields. -/
structure ChatRequest where
  url_path : String
  method : String
  timeout_ms : Nat
  prompt : String
  format : String
deriving DecidableEq, Repr

/-- JavaScript `s || null` on a string: `null` exactly when `s` is the empty
string (the only falsy string). -/
def jsOrNull (s : String) : Option String :=
  if s = "" then none else some s

/-- The request built and sent by `sendRequest` (`index.js`): URL path
`/api/chat`, method POST, timeout 60000 ms, body
`{prompt: JSON.stringify({题目: question, 答案: answer.trim() || null}),
format: 'text'}`, with `question` sent untrimmed. -/
def sendRequestBody (question answer : String) : ChatRequest :=
  { url_path := "/api/chat"
    method := "POST"
    timeout_ms := 60000
    prompt := stringifyPayload question (jsOrNull (jsTrim answer))
    format := "text" }

/-- `submitContent` (`index.js`): when the question is empty after trimming the
page shows a toast and returns without sending anything; otherwise the request
is sent. -/
def submitContent (question answer : String) : Option ChatRequest :=
  if jsTrim question = "" then none
  else some (sendRequestBody question answer)

/-- The success test of the `wx.request` success callback (`index.js`):
`res.statusCode === 200 && res.data`.  The response body is `none` when absent;
a present body carries an optional `response` field. -/
def successBranch (statusCode : Nat) (data : Option (Option String)) : Bool :=
  statusCode == 200 && data.isSome

/-- The response text the success callback stores (`index.js`): on the success
branch `res.data.response || '服务器返回数据格式错误'`, otherwise
`'请求失败，请稍后再试'`. -/
def handleApiResult (statusCode : Nat) (data : Option (Option String)) : String :=
  if successBranch statusCode data then
    match data with
    | some (some r) => if r = "" then "服务器返回数据格式错误" else r
    | some none => "服务器返回数据格式错误"
    | none => "服务器返回数据格式错误"
  else "请求失败，请稍后再试"

/-- The page data fields of the ad-enabled variant (`src/unnamed/part_000`);
the plain variant has the same fields minus `showingAd`. -/
structure PageState where
  question : String
  answer : String
  response : String
  isLoading : Bool
  showingAd : Bool
deriving DecidableEq, Repr

/-- Terminal outcomes of the rewarded-video ad flow in `playAdAndSubmit`
(`src/unnamed/part_000`): `videoAd.onError`, `videoAd.onClose` (with the flag
saying whether the video was watched to the end), and rejection of
`videoAd.show()`. -/
inductive AdEvent where
  | loadError
  | closed (watchedToEnd : Bool)
  | showFailed
deriving DecidableEq, Repr

/-- The handler the page installs for each terminal ad outcome: every branch
sets `showingAd` to `false` and then calls `sendRequest` (the Boolean records
that `sendRequest` was invoked). -/
def adTerminalHandler (s : PageState) (e : AdEvent) : PageState × Bool :=
  match e with
  | .loadError => ({ s with showingAd := false }, true)
  | .closed _ => ({ s with showingAd := false }, true)
  | .showFailed => ({ s with showingAd := false }, true)

/-- How one `wx.request` ends: the success callback fires with a status code
and optional body, or the fail callback fires (network error or timeout). -/
inductive RequestOutcome where
  | succeeded (statusCode : Nat) (data : Option (Option String))
  | failed
deriving DecidableEq, Repr

/-- The end of one request in both page variants: the success or fail callback
updates `response`, then the `complete` callback sets `isLoading` to
`false`. -/
def finishRequest (s : PageState) (o : RequestOutcome) : PageState :=
  let afterBranch :=
    match o with
    | .succeeded code data => { s with response := handleApiResult code data }
    | .failed => { s with response := "网络错误，请检查网络连接" }
  { afterBranch with isLoading := false }

/-! ## Theorems -/

/-! ### Admission controller -/

theorem pruneWindow_append (now : Nat) (w1 w2 : List (Nat × Nat)) :
    pruneWindow now (w1 ++ w2) = pruneWindow now w1 ++ pruneWindow now w2 :=
  List.filter_append _ _

theorem attempts_succ (cfg : AdmissionConfig) (now : Nat) (s : AdmissionState) (n : Nat) :
    attempts cfg now s (n + 1)
      = ((try_acquire cfg now s).1 :: (attempts cfg now (try_acquire cfg now s).2 n).1,
          (attempts cfg now (try_acquire cfg now s).2 n).2) := rfl

theorem try_acquire_admit (cfg : AdmissionConfig) (now i : Nat) (s : AdmissionState)
    (hs : Steady now i s) (hi : i < cfg.max_concurrent_requests)
    (hr : i < cfg.rate_limit_per_minute) :
    try_acquire cfg now s = (.Admitted, ⟨i + 1, s.window_counts ++ [(now, 1)]⟩) := by
  obtain ⟨hif, hpr, hsum⟩ := hs
  simp only [try_acquire, hpr, hsum]
  rw [if_neg (by omega), if_neg (by omega), hif]

theorem try_acquire_conc_reject (cfg : AdmissionConfig) (now i : Nat) (s : AdmissionState)
    (hs : Steady now i s) (hi : cfg.max_concurrent_requests ≤ i)
    (hr : i < cfg.rate_limit_per_minute) :
    try_acquire cfg now s = (.Rejected .ConcurrencyExceeded, s) := by
  obtain ⟨hif, hpr, hsum⟩ := hs
  simp only [try_acquire, hpr, hsum]
  rw [if_neg (by omega), if_pos (by omega)]

theorem Steady_admit_next (cfg : AdmissionConfig) (now i : Nat) (s : AdmissionState)
    (hs : Steady now i s) : Steady now (i + 1) ⟨i + 1, s.window_counts ++ [(now, 1)]⟩ := by
  obtain ⟨hif, hpr, hsum⟩ := hs
  refine ⟨rfl, ?_, ?_⟩
  · show pruneWindow now (s.window_counts ++ [(now, 1)]) = s.window_counts ++ [(now, 1)]
    rw [pruneWindow_append, hpr]
    simp [pruneWindow]
  · show ((s.window_counts ++ [(now, 1)]).map Prod.snd).sum = i + 1
    simp [hsum]

theorem attempts_steady (cfg : AdmissionConfig)
    (hmr : cfg.max_concurrent_requests < cfg.rate_limit_per_minute) (now n : Nat) :
    ∀ (i : Nat) (s : AdmissionState), Steady now i s → i ≤ cfg.max_concurrent_requests →
      (attempts cfg now s n).1
          = List.replicate (min n (cfg.max_concurrent_requests - i)) AcquireResult.Admitted
            ++ List.replicate (n - (cfg.max_concurrent_requests - i))
                (AcquireResult.Rejected RejectReason.ConcurrencyExceeded)
        ∧ Steady now (min cfg.max_concurrent_requests (i + n)) (attempts cfg now s n).2 := by
  induction n with
  | zero =>
    intro i s hs hi
    refine ⟨by simp [attempts], ?_⟩
    simpa [attempts, Nat.min_eq_right hi] using hs
  | succ n ih =>
    intro i s hs hi
    rcases Nat.lt_or_ge i cfg.max_concurrent_requests with hlt | hge
    · have hadm := try_acquire_admit cfg now i s hs hlt (lt_trans hlt hmr)
      have hs' := Steady_admit_next cfg now i s hs
      obtain ⟨h1, h2⟩ := ih (i + 1) ⟨i + 1, s.window_counts ++ [(now, 1)]⟩ hs' hlt
      rw [attempts_succ, hadm]
      dsimp only
      refine ⟨?_, ?_⟩
      · rw [h1]
        have e1 : cfg.max_concurrent_requests - i
            = (cfg.max_concurrent_requests - (i + 1)) + 1 := by omega
        have e2 : min (n + 1) ((cfg.max_concurrent_requests - (i + 1)) + 1)
            = min n (cfg.max_concurrent_requests - (i + 1)) + 1 := by omega
        have e3 : (n + 1) - ((cfg.max_concurrent_requests - (i + 1)) + 1)
            = n - (cfg.max_concurrent_requests - (i + 1)) := by omega
        rw [e1, e2, e3, List.replicate_succ, List.cons_append]
      · have e4 : i + (n + 1) = (i + 1) + n := by omega
        rw [e4]
        exact h2
    · have hrej := try_acquire_conc_reject cfg now i s hs hge (lt_of_le_of_lt hi hmr)
      obtain ⟨h1, h2⟩ := ih i s hs hi
      rw [attempts_succ, hrej]
      dsimp only
      refine ⟨?_, ?_⟩
      · rw [h1]
        have e1 : cfg.max_concurrent_requests - i = 0 := by omega
        rw [e1]
        simp [List.replicate_succ]
      · have e4 : min cfg.max_concurrent_requests (i + (n + 1))
            = min cfg.max_concurrent_requests (i + n) := by omega
        rw [e4]
        exact h2

/-- C1: for every run of `N` concurrent `try_acquire` attempts with
`N > max_concurrent_requests` (from a fresh Admission Controller, with the
concurrency bound below the rate bound as in the defaults 10 < 60), exactly
`max_concurrent_requests` attempts are `Admitted` and every other attempt is
`Rejected ConcurrencyExceeded`; after any number of attempts the
`in_flight_count` never exceeds the configured maximum (and is at least 0 by
its `Nat` carrier); and after one `release()` a further acquire attempt
succeeds. -/
theorem C1_admission_concurrency_bound (cfg : AdmissionConfig)
    (hmax : 0 < cfg.max_concurrent_requests)
    (hmr : cfg.max_concurrent_requests < cfg.rate_limit_per_minute)
    (now N : Nat) (hN : cfg.max_concurrent_requests < N) :
    ((attempts cfg now initialAdmissionState N).1.count AcquireResult.Admitted
        = cfg.max_concurrent_requests)
    ∧ ((attempts cfg now initialAdmissionState N).1.count
          (AcquireResult.Rejected RejectReason.ConcurrencyExceeded)
        = N - cfg.max_concurrent_requests)
    ∧ (∀ r ∈ (attempts cfg now initialAdmissionState N).1,
        r = AcquireResult.Admitted
          ∨ r = AcquireResult.Rejected RejectReason.ConcurrencyExceeded)
    ∧ (∀ n : Nat, (attempts cfg now initialAdmissionState n).2.in_flight_count
        ≤ cfg.max_concurrent_requests)
    ∧ (try_acquire cfg now
          (release (attempts cfg now initialAdmissionState N).2)).1
        = AcquireResult.Admitted := by
  have hinit : Steady now 0 initialAdmissionState := ⟨rfl, rfl, rfl⟩
  obtain ⟨h1, h2⟩ := attempts_steady cfg hmr now N 0 initialAdmissionState hinit (Nat.zero_le _)
  have hminN : min N (cfg.max_concurrent_requests - 0) = cfg.max_concurrent_requests := by
    omega
  have hsubN : N - (cfg.max_concurrent_requests - 0) = N - cfg.max_concurrent_requests := by
    omega
  rw [hminN, hsubN] at h1
  have hM : min cfg.max_concurrent_requests (0 + N) = cfg.max_concurrent_requests := by omega
  rw [hM] at h2
  refine ⟨?_, ?_, ?_, ?_, ?_⟩
  · rw [h1]
    simp [List.count_replicate]
  · rw [h1]
    simp [List.count_replicate]
  · intro r hr
    rw [h1] at hr
    rcases List.mem_append.mp hr with h | h
    · exact Or.inl (List.eq_of_mem_replicate h)
    · exact Or.inr (List.eq_of_mem_replicate h)
  · intro n
    obtain ⟨_, hst⟩ := attempts_steady cfg hmr now n 0 initialAdmissionState hinit (Nat.zero_le _)
    rw [hst.1]
    omega
  · obtain ⟨hif, hpr, hsum⟩ := h2
    simp only [try_acquire, release, hpr, hsum, hif]
    rw [if_neg (by omega), if_neg (by omega)]

/-- Closed witness for C1 at the documented defaults (10 concurrent slots,
rate 60/min) with 11 same-instant attempts. -/
theorem C1_witness :
    ((attempts defaultAdmissionConfig 0 initialAdmissionState 11).1.count
        AcquireResult.Admitted = 10)
    ∧ ((attempts defaultAdmissionConfig 0 initialAdmissionState 11).1.count
          (AcquireResult.Rejected RejectReason.ConcurrencyExceeded) = 11 - 10)
    ∧ (∀ r ∈ (attempts defaultAdmissionConfig 0 initialAdmissionState 11).1,
        r = AcquireResult.Admitted
          ∨ r = AcquireResult.Rejected RejectReason.ConcurrencyExceeded)
    ∧ (∀ n : Nat, (attempts defaultAdmissionConfig 0 initialAdmissionState n).2.in_flight_count
        ≤ 10)
    ∧ (try_acquire defaultAdmissionConfig 0
          (release (attempts defaultAdmissionConfig 0 initialAdmissionState 11).2)).1
        = AcquireResult.Admitted :=
  C1_admission_concurrency_bound defaultAdmissionConfig (by decide) (by decide) 0 11 (by decide)

theorem windowSum_le (now : Nat) (w : List (Nat × Nat)) :
    windowSum now w ≤ (w.map Prod.snd).sum := by
  induction w with
  | nil => simp [windowSum, pruneWindow]
  | cons b w ih =>
    simp only [windowSum, pruneWindow, List.filter_cons] at ih ⊢
    split
    · simp only [List.map_cons, List.sum_cons]
      omega
    · simp only [List.map_cons, List.sum_cons]
      omega

theorem sum_stampOnes (stamps : List Nat) :
    ((stamps.map (fun t => (t, 1))).map Prod.snd).sum = stamps.length := by
  induction stamps with
  | nil => simp
  | cons t ts ih =>
    simp only [List.map_cons, List.sum_cons, List.length_cons]
    rw [ih]
    omega

theorem pruneWindow_in_window (now t1 : Nat) (hnow : now < t1 + 60)
    (w : List (Nat × Nat)) (hw : ∀ b ∈ w, t1 ≤ b.1) : pruneWindow now w = w := by
  rw [pruneWindow, List.filter_eq_self]
  intro b hb
  have := hw b hb
  simp only [decide_eq_true_eq]
  omega

theorem runCycles_cons (cfg : AdmissionConfig) (s : AdmissionState) (t : Nat)
    (ts : List Nat) :
    runCycles cfg s (t :: ts)
      = ((requestCycle cfg t s).1 :: (runCycles cfg (requestCycle cfg t s).2 ts).1,
          (runCycles cfg (requestCycle cfg t s).2 ts).2) := rfl

theorem runCycles_append (cfg : AdmissionConfig) (s : AdmissionState)
    (ts1 ts2 : List Nat) :
    runCycles cfg s (ts1 ++ ts2)
      = ((runCycles cfg s ts1).1 ++ (runCycles cfg (runCycles cfg s ts1).2 ts2).1,
          (runCycles cfg (runCycles cfg s ts1).2 ts2).2) := by
  induction ts1 generalizing s with
  | nil => simp [runCycles]
  | cons t ts ih => simp [runCycles_cons, ih]

theorem runCycles_admits (cfg : AdmissionConfig)
    (hmax : 0 < cfg.max_concurrent_requests) (t1 : Nat) :
    ∀ (ts pref : List Nat),
      (∀ t ∈ pref, t1 ≤ t ∧ t < t1 + 60) →
      (∀ t ∈ ts, t1 ≤ t ∧ t < t1 + 60) →
      pref.length + ts.length ≤ cfg.rate_limit_per_minute →
      runCycles cfg ⟨0, pref.map (fun u => (u, 1))⟩ ts
        = (List.replicate ts.length AcquireResult.Admitted,
            ⟨0, (pref ++ ts).map (fun u => (u, 1))⟩) := by
  intro ts
  induction ts with
  | nil =>
    intro pref hp ht hlen
    simp [runCycles]
  | cons t ts ih =>
    intro pref hp ht hlen
    simp only [List.length_cons] at hlen
    have hthis := ht t (List.mem_cons_self t ts)
    have hpw : pruneWindow t (pref.map (fun u => (u, 1))) = pref.map (fun u => (u, 1)) := by
      apply pruneWindow_in_window t t1 (by omega)
      intro b hb
      obtain ⟨u, hu, rfl⟩ := List.mem_map.mp hb
      exact (hp u hu).1
    have hsum : ((pref.map (fun u => (u, 1))).map Prod.snd).sum = pref.length :=
      sum_stampOnes pref
    have hta : try_acquire cfg t ⟨0, pref.map (fun u => (u, 1))⟩
        = (.Admitted, ⟨1, pref.map (fun u => (u, 1)) ++ [(t, 1)]⟩) := by
      simp only [try_acquire, hpw, hsum]
      rw [if_neg (by omega), if_neg (by omega)]
    have hcyc : requestCycle cfg t ⟨0, pref.map (fun u => (u, 1))⟩
        = (.Admitted, ⟨0, (pref ++ [t]).map (fun u => (u, 1))⟩) := by
      simp only [requestCycle, hta]
      simp [release, List.map_append]
    rw [runCycles_cons, hcyc]
    dsimp only
    rw [ih (pref ++ [t]) ?hp ?ht ?hl]
    case hp =>
      intro u hu
      rcases List.mem_append.mp hu with h | h
      · exact hp u h
      · rcases List.mem_singleton.mp h with rfl
        exact hthis
    case ht => exact fun u hu => ht u (List.mem_cons_of_mem t hu)
    case hl => simp; omega
    simp [List.replicate_succ, List.append_assoc]

theorem tryAcquire_rateLimited_iff (cfg : AdmissionConfig) (now : Nat)
    (s : AdmissionState) :
    (try_acquire cfg now s).1 = AcquireResult.Rejected RejectReason.RateLimited
      ↔ cfg.rate_limit_per_minute ≤ windowSum now s.window_counts := by
  rw [windowSum]
  by_cases h : cfg.rate_limit_per_minute ≤ ((pruneWindow now s.window_counts).map Prod.snd).sum
  · simp [try_acquire, h]
  · simp only [try_acquire]
    rw [if_neg h]
    by_cases h2 : cfg.max_concurrent_requests ≤ s.in_flight_count
    · rw [if_pos h2]
      simp [h]
    · rw [if_neg h2]
      simp [h]

/-- C2: with the rate limit at its configured 60 requests per minute, a run of
61 requests all issued inside one minute (first one at `t1`, all timestamps in
`[t1, t1 + 60)`, each admitted request releasing its slot on completion) has
its first 60 calls admitted and its 61st call `Rejected RateLimited`;
`try_acquire` fails with `RateLimited` exactly when the summed count of the
trailing 60-second window at call time is at or above the limit; and once the
window has slid 60 seconds past the first request, a further acquire is
admitted again. -/
theorem C2_sliding_window_rate_limit (t1 t61 : Nat) (mid : List Nat)
    (hmid : mid.length = 59)
    (hbounds : ∀ t ∈ mid, t1 ≤ t ∧ t < t1 + 60)
    (ht61a : t1 ≤ t61) (ht61b : t61 < t1 + 60) :
    ((runCycles defaultAdmissionConfig initialAdmissionState ((t1 :: mid) ++ [t61])).1
        = List.replicate 60 AcquireResult.Admitted
          ++ [AcquireResult.Rejected RejectReason.RateLimited])
    ∧ (∀ (cfg : AdmissionConfig) (now : Nat) (s : AdmissionState),
        (try_acquire cfg now s).1 = AcquireResult.Rejected RejectReason.RateLimited
          ↔ cfg.rate_limit_per_minute ≤ windowSum now s.window_counts)
    ∧ (try_acquire defaultAdmissionConfig (t1 + 60)
          (runCycles defaultAdmissionConfig initialAdmissionState
            ((t1 :: mid) ++ [t61])).2).1
        = AcquireResult.Admitted := by
  have hpref : ∀ t ∈ t1 :: mid, t1 ≤ t ∧ t < t1 + 60 := by
    intro t ht
    rcases List.mem_cons.mp ht with rfl | h
    · omega
    · exact hbounds t h
  have h60 : runCycles defaultAdmissionConfig initialAdmissionState (t1 :: mid)
      = (List.replicate 60 AcquireResult.Admitted,
          ⟨0, (t1 :: mid).map (fun u => (u, 1))⟩) := by
    have h := runCycles_admits defaultAdmissionConfig (by decide) t1 (t1 :: mid) []
      (by intro t ht; simp at ht) hpref
      (by simp [hmid, defaultAdmissionConfig])
    simpa [hmid, initialAdmissionState] using h
  have hpw : pruneWindow t61 ((t1 :: mid).map (fun u => (u, 1)))
      = (t1 :: mid).map (fun u => (u, 1)) := by
    apply pruneWindow_in_window t61 t1 (by omega)
    intro b hb
    obtain ⟨u, hu, rfl⟩ := List.mem_map.mp hb
    exact (hpref u hu).1
  have hsum : (((t1 :: mid).map (fun u => (u, 1))).map Prod.snd).sum = 60 := by
    rw [sum_stampOnes]
    simp [hmid]
  have hta61 : try_acquire defaultAdmissionConfig t61
        ⟨0, (t1 :: mid).map (fun u => (u, 1))⟩
      = (.Rejected .RateLimited, ⟨0, (t1 :: mid).map (fun u => (u, 1))⟩) := by
    simp only [try_acquire, hpw, hsum]
    rw [if_pos (by decide)]
  have hfull : runCycles defaultAdmissionConfig initialAdmissionState ((t1 :: mid) ++ [t61])
      = (List.replicate 60 AcquireResult.Admitted
          ++ [AcquireResult.Rejected RejectReason.RateLimited],
          ⟨0, (t1 :: mid).map (fun u => (u, 1))⟩) := by
    rw [runCycles_append, h60]
    dsimp only
    rw [runCycles_cons]
    simp only [requestCycle, hta61]
    simp [runCycles]
  have hdrop : pruneWindow (t1 + 60) ((t1 :: mid).map (fun u => (u, 1)))
      = pruneWindow (t1 + 60) (mid.map (fun u => (u, 1))) := by
    simp only [List.map_cons, pruneWindow, List.filter_cons]
    rw [if_neg (by simp)]
  have hle : ((pruneWindow (t1 + 60) (mid.map (fun u => (u, 1)))).map Prod.snd).sum ≤ 59 := by
    have h1 := windowSum_le (t1 + 60) (mid.map (fun u => (u, 1)))
    rw [windowSum, sum_stampOnes] at h1
    omega
  refine ⟨by rw [hfull], fun cfg now s => tryAcquire_rateLimited_iff cfg now s, ?_⟩
  rw [hfull]
  dsimp only
  simp only [try_acquire, defaultAdmissionConfig, hdrop]
  rw [if_neg (by omega), if_neg (by omega)]

/-- Closed witness for C2: all 61 calls at time 0. -/
theorem C2_witness :
    ((runCycles defaultAdmissionConfig initialAdmissionState
          ((0 :: List.replicate 59 0) ++ [0])).1
        = List.replicate 60 AcquireResult.Admitted
          ++ [AcquireResult.Rejected RejectReason.RateLimited])
    ∧ (∀ (cfg : AdmissionConfig) (now : Nat) (s : AdmissionState),
        (try_acquire cfg now s).1 = AcquireResult.Rejected RejectReason.RateLimited
          ↔ cfg.rate_limit_per_minute ≤ windowSum now s.window_counts)
    ∧ (try_acquire defaultAdmissionConfig (0 + 60)
          (runCycles defaultAdmissionConfig initialAdmissionState
            ((0 :: List.replicate 59 0) ++ [0])).2).1
        = AcquireResult.Admitted :=
  C2_sliding_window_rate_limit 0 0 (List.replicate 59 0) (by decide)
    (by intro t ht; rcases List.eq_of_mem_replicate ht with rfl; exact ⟨Nat.le_refl 0, by decide⟩)
    (Nat.le_refl 0) (by decide)

/-! ### Response cache -/

theorem removeKey_length_lt (k : String) (es : List CacheEntry) (e : CacheEntry)
    (he : e ∈ es) (hk : e.key = k) : (removeKey k es).length < es.length := by
  induction es with
  | nil => cases he
  | cons a es ih =>
    rcases List.mem_cons.mp he with rfl | h
    · simp only [removeKey, List.filter_cons]
      rw [if_neg (by simp [hk])]
      have := List.length_filter_le (fun x => !(x.key == k)) es
      simp only [removeKey, List.length_cons]
      omega
    · have hlt := ih h
      simp only [removeKey, List.filter_cons] at hlt ⊢
      split
      · simp only [List.length_cons]
        omega
      · simp only [List.length_cons]
        omega

/-- C4: a `put(k, v)` followed immediately by `get(k)` returns `v` (for a
positive TTL and a positive capacity, as in the defaults 300 s / 100 entries);
once the TTL of every entry stored under `k` has elapsed, `get(k)` treats the
entry as a miss, returns absent, and removes it; and the default TTL is 300
seconds. -/
theorem C4_cache_roundtrip_and_ttl (cfg : CacheConfig) :
    (∀ (now : Nat) (c : ResponseCache) (k v : String),
        0 < cfg.cache_ttl_seconds → 0 < cfg.max_cache_size →
        (cacheGet cfg now (cachePut cfg now c k v) k).1 = some v)
    ∧ (∀ (now : Nat) (c : ResponseCache) (k : String),
        (∀ e ∈ c.entries, e.key = k → e.created_at + cfg.cache_ttl_seconds ≤ now) →
        (cacheGet cfg now c k).1 = none
          ∧ ∀ e ∈ (cacheGet cfg now c k).2.entries, e.key ≠ k)
    ∧ defaultCacheConfig.cache_ttl_seconds = 300 := by
  refine ⟨?_, ?_, rfl⟩
  · intro now c k v httl hmax
    obtain ⟨m, hm⟩ : ∃ m, cfg.max_cache_size = m + 1 := ⟨cfg.max_cache_size - 1, by omega⟩
    have hfind : ((cachePut cfg now c k v).entries.find? (fun e => e.key == k))
        = some ⟨k, v, now⟩ := by
      simp only [cachePut, hm, List.take_succ_cons]
      exact List.find?_cons_of_pos _ (by simp)
    simp only [cacheGet, hfind]
    rw [if_neg (by omega)]
  · intro now c k hexp
    rcases hfind : c.entries.find? (fun e => e.key == k) with _ | e
    · refine ⟨by simp [cacheGet, hfind], ?_⟩
      simp only [cacheGet, hfind]
      intro e he
      have := List.find?_eq_none.mp hfind e he
      simpa using this
    · have hkey : e.key = k := by simpa using List.find?_some hfind
      have hmem := List.mem_of_find?_eq_some hfind
      have hexpired := hexp e hmem hkey
      refine ⟨by simp [cacheGet, hfind, hexpired], ?_⟩
      simp only [cacheGet, hfind]
      rw [if_pos hexpired]
      intro e2 he2
      have := List.mem_filter.mp he2
      simpa using this.2

/-- C5: a `put` never grows the cache beyond `max_cache_size` and a `get`
never grows it at all; a `put` of a fresh key into a cache at capacity keeps
the new entry plus all but the last (least-recently-used) entry, evicting
exactly that one; a `get` hit moves the accessed entry to the front of the
recency order, which protects it from the next eviction (it survives a
subsequent `put` whenever the capacity is at least 2); and the default
capacity is 100 entries. -/
theorem C5_cache_lru_eviction (cfg : CacheConfig) :
    (∀ (now : Nat) (c : ResponseCache) (k v : String),
        (cachePut cfg now c k v).entries.length ≤ cfg.max_cache_size)
    ∧ (∀ (now : Nat) (c : ResponseCache) (k : String),
        (cacheGet cfg now c k).2.entries.length ≤ c.entries.length)
    ∧ (∀ (now : Nat) (c : ResponseCache) (k v : String),
        c.entries.length = cfg.max_cache_size → 0 < cfg.max_cache_size →
        (∀ e ∈ c.entries, e.key ≠ k) →
        (cachePut cfg now c k v).entries = ⟨k, v, now⟩ :: c.entries.dropLast)
    ∧ (∀ (now : Nat) (c : ResponseCache) (k v : String),
        (cacheGet cfg now c k).1 = some v →
        ∃ e, (cacheGet cfg now c k).2.entries.head? = some e ∧ e.key = k)
    ∧ (∀ (now now' : Nat) (c : ResponseCache) (k k' v v' : String),
        2 ≤ cfg.max_cache_size →
        (cacheGet cfg now c k).1 = some v →
        ∃ e ∈ (cachePut cfg now' ((cacheGet cfg now c k).2) k' v').entries, e.key = k)
    ∧ defaultCacheConfig.max_cache_size = 100 := by
  refine ⟨?_, ?_, ?_, ?_, ?_, rfl⟩
  · intro now c k v
    simp only [cachePut, List.length_take]
    omega
  · intro now c k
    rcases hfind : c.entries.find? (fun e => e.key == k) with _ | e
    · simp [cacheGet, hfind]
    · have hkey : e.key = k := by simpa using List.find?_some hfind
      have hmem := List.mem_of_find?_eq_some hfind
      have hlt := removeKey_length_lt k c.entries e hmem hkey
      have hle := List.length_filter_le (fun x => !(x.key == k)) c.entries
      simp only [cacheGet, hfind]
      split
      · simpa [removeKey] using hle
      · simp only [List.length_cons]
        omega
  · intro now c k v hlen hpos hfresh
    have hrm : removeKey k c.entries = c.entries := by
      rw [removeKey, List.filter_eq_self]
      intro e he
      simp [hfresh e he]
    obtain ⟨m, hm⟩ : ∃ m, cfg.max_cache_size = m + 1 := ⟨cfg.max_cache_size - 1, by omega⟩
    simp only [cachePut, hrm, hm, List.take_succ_cons]
    rw [List.dropLast_eq_take, hlen, hm, Nat.add_sub_cancel]
  · intro now c k v hget
    rcases hfind : c.entries.find? (fun e => e.key == k) with _ | e
    · simp [cacheGet, hfind] at hget
    · have hkey : e.key = k := by simpa using List.find?_some hfind
      by_cases hex : e.created_at + cfg.cache_ttl_seconds ≤ now
      · simp [cacheGet, hfind, hex] at hget
      · refine ⟨e, ?_, hkey⟩
        simp [cacheGet, hfind, hex]
  · intro now now' c k k' v v' hcap hget
    rcases hfind : c.entries.find? (fun e => e.key == k) with _ | e
    · simp [cacheGet, hfind] at hget
    · have hkey : e.key = k := by simpa using List.find?_some hfind
      by_cases hex : e.created_at + cfg.cache_ttl_seconds ≤ now
      · simp [cacheGet, hfind, hex] at hget
      · have hgm : (cacheGet cfg now c k).2.entries = e :: removeKey k c.entries := by
          simp [cacheGet, hfind, hex]
        obtain ⟨m, hm⟩ : ∃ m, cfg.max_cache_size = m + 2 := ⟨cfg.max_cache_size - 2, by omega⟩
        by_cases hkk : e.key = k'
        · refine ⟨⟨k', v', now'⟩, ?_, by rw [← hkk, hkey]⟩
          simp only [cachePut, hgm, hm, List.take_succ_cons]
          exact List.mem_cons_self _ _
        · refine ⟨e, ?_, hkey⟩
          simp only [cachePut, hgm, hm]
          rw [removeKey, List.filter_cons, if_pos (by simp [hkk])]
          rw [List.take_succ_cons, List.take_succ_cons]
          exact List.mem_cons_of_mem _ (List.mem_cons_self e _)

/-- Closed witness for C4 at the default configuration. -/
theorem C4_witness :
    (cacheGet defaultCacheConfig 7 (cachePut defaultCacheConfig 7 emptyCache "k" "v") "k").1
        = some "v"
    ∧ ((cacheGet defaultCacheConfig 1000 ⟨[⟨"k", "v", 0⟩]⟩ "k").1 = none
        ∧ ∀ e ∈ (cacheGet defaultCacheConfig 1000 ⟨[⟨"k", "v", 0⟩]⟩ "k").2.entries,
            e.key ≠ "k")
    ∧ defaultCacheConfig.cache_ttl_seconds = 300 := by
  have h := C4_cache_roundtrip_and_ttl defaultCacheConfig
  exact ⟨h.1 7 emptyCache "k" "v" (by decide) (by decide),
    h.2.1 1000 ⟨[⟨"k", "v", 0⟩]⟩ "k" (by decide), h.2.2⟩

/-- Closed witness for C5 on a capacity-2 cache holding entries under keys
"a" (most recent) and "b" (least recent). -/
theorem C5_witness :
    ((cachePut ⟨300, 2⟩ 20 ⟨[⟨"a", "1", 10⟩, ⟨"b", "2", 5⟩]⟩ "c" "3").entries.length ≤ 2)
    ∧ ((cacheGet ⟨300, 2⟩ 20 ⟨[⟨"a", "1", 10⟩, ⟨"b", "2", 5⟩]⟩ "a").2.entries.length
        ≤ (⟨[⟨"a", "1", 10⟩, ⟨"b", "2", 5⟩]⟩ : ResponseCache).entries.length)
    ∧ ((cachePut ⟨300, 2⟩ 20 ⟨[⟨"a", "1", 10⟩, ⟨"b", "2", 5⟩]⟩ "c" "3").entries
        = ⟨"c", "3", 20⟩ :: ([⟨"a", "1", 10⟩, ⟨"b", "2", 5⟩] : List CacheEntry).dropLast)
    ∧ (∃ e, (cacheGet ⟨300, 2⟩ 20 ⟨[⟨"a", "1", 10⟩, ⟨"b", "2", 5⟩]⟩ "a").2.entries.head?
          = some e ∧ e.key = "a")
    ∧ (∃ e ∈ (cachePut ⟨300, 2⟩ 21
          ((cacheGet ⟨300, 2⟩ 20 ⟨[⟨"a", "1", 10⟩, ⟨"b", "2", 5⟩]⟩ "b").2) "c" "3").entries,
        e.key = "b")
    ∧ defaultCacheConfig.max_cache_size = 100 := by
  have h := C5_cache_lru_eviction ⟨300, 2⟩
  exact ⟨h.1 20 ⟨[⟨"a", "1", 10⟩, ⟨"b", "2", 5⟩]⟩ "c" "3",
    h.2.1 20 ⟨[⟨"a", "1", 10⟩, ⟨"b", "2", 5⟩]⟩ "a",
    h.2.2.1 20 ⟨[⟨"a", "1", 10⟩, ⟨"b", "2", 5⟩]⟩ "c" "3" (by decide) (by decide) (by decide),
    h.2.2.2.1 20 ⟨[⟨"a", "1", 10⟩, ⟨"b", "2", 5⟩]⟩ "a" "1" (by decide),
    h.2.2.2.2.1 20 21 ⟨[⟨"a", "1", 10⟩, ⟨"b", "2", 5⟩]⟩ "b" "c" "2" "3" (by decide) (by decide),
    h.2.2.2.2.2⟩

/-! ### Similarity index search -/

theorem searchLE_eq_true_iff (a b : ScoredDoc) :
    searchLE a b = true ↔ SearchOrder a b := by
  simp [searchLE, SearchOrder]

theorem searchLE_trans (a b c : ScoredDoc) :
    searchLE a b = true → searchLE b c = true → searchLE a c = true := by
  simp only [searchLE, Bool.or_eq_true, Bool.and_eq_true, decide_eq_true_eq]
  rintro (h1 | ⟨h1, h1d⟩) (h2 | ⟨h2, h2d⟩)
  · exact Or.inl (lt_trans h2 h1)
  · exact Or.inl (h2 ▸ h1)
  · exact Or.inl (by rw [h1]; exact h2)
  · exact Or.inr ⟨h1.trans h2, le_trans h1d h2d⟩

theorem searchLE_total (a b : ScoredDoc) :
    (searchLE a b || searchLE b a) = true := by
  simp only [searchLE, Bool.or_eq_true, Bool.and_eq_true, decide_eq_true_eq]
  rcases lt_trichotomy a.score b.score with h | h | h
  · exact Or.inr (Or.inl h)
  · rcases le_total a.doc_id b.doc_id with hd | hd
    · exact Or.inl (Or.inr ⟨h, hd⟩)
    · exact Or.inr (Or.inr ⟨h.symm, hd⟩)
  · exact Or.inl (Or.inl h)

theorem SearchOrder_antisymm (a b : ScoredDoc) :
    SearchOrder a b → SearchOrder b a → a = b := by
  rintro (h1 | ⟨h1, h1d⟩) (h2 | ⟨h2, h2d⟩)
  · exact absurd h2 (lt_asymm h1)
  · rw [h2] at h1
    exact absurd h1 (lt_irrefl _)
  · rw [h1] at h2
    exact absurd h2 (lt_irrefl _)
  · have hid : a.doc_id = b.doc_id := le_antisymm h1d h2d
    cases a
    cases b
    simp_all

/-- C3: for every query representation, every `top_k` and every `min_score`,
`search` returns a sequence ordered descending by score with ties broken by
ascending document id, containing no result below `min_score`, of length at
most `top_k`; and the result is determined by the contents of the index alone
(any permutation of the index yields the identical result list), so for a
fixed corpus and encoder retrieval is deterministic. -/
theorem C3_search_contract (ρ : Type) (sim : ρ → ρ → ℚ) (index : List (String × ρ))
    (q : ρ) (top_k : Nat) (min_score : ℚ) :
    (search sim index q top_k min_score).Pairwise SearchOrder
    ∧ (∀ d ∈ search sim index q top_k min_score, min_score ≤ d.score)
    ∧ (search sim index q top_k min_score).length ≤ top_k
    ∧ (∀ index2 : List (String × ρ), index2.Perm index →
        search sim index2 q top_k min_score = search sim index q top_k min_score) := by
  refine ⟨?_, ?_, ?_, ?_⟩
  · have hs := List.sorted_mergeSort searchLE_trans searchLE_total
      ((index.map (fun d => ScoredDoc.mk d.1 (sim q d.2))).filter
        (fun d => decide (min_score ≤ d.score)))
    have htake := List.Pairwise.sublist (List.take_sublist top_k _) hs
    simp only [search]
    exact htake.imp (fun h => (searchLE_eq_true_iff _ _).mp h)
  · intro d hd
    simp only [search] at hd
    have h1 := List.mem_of_mem_take hd
    rw [List.mem_mergeSort] at h1
    have h2 := List.mem_filter.mp h1
    simpa using h2.2
  · simp only [search, List.length_take]
    omega
  · intro index2 hperm
    simp only [search]
    haveI : IsAntisymm ScoredDoc SearchOrder := ⟨SearchOrder_antisymm⟩
    congr 1
    have hp : List.Perm
        ((index2.map (fun d => ScoredDoc.mk d.1 (sim q d.2))).filter
          (fun d => decide (min_score ≤ d.score)))
        ((index.map (fun d => ScoredDoc.mk d.1 (sim q d.2))).filter
          (fun d => decide (min_score ≤ d.score))) :=
      (hperm.map _).filter _
    have hs2 := List.sorted_mergeSort searchLE_trans searchLE_total
      ((index2.map (fun d => ScoredDoc.mk d.1 (sim q d.2))).filter
        (fun d => decide (min_score ≤ d.score)))
    have hs1 := List.sorted_mergeSort searchLE_trans searchLE_total
      ((index.map (fun d => ScoredDoc.mk d.1 (sim q d.2))).filter
        (fun d => decide (min_score ≤ d.score)))
    exact List.eq_of_perm_of_sorted
      ((List.mergeSort_perm _ _).trans (hp.trans (List.mergeSort_perm _ _).symm))
      (hs2.imp (fun h => (searchLE_eq_true_iff _ _).mp h))
      (hs1.imp (fun h => (searchLE_eq_true_iff _ _).mp h))

/-- Closed witness for C3: a two-document index over rational representations
with product similarity, queried with `top_k = 2`, `min_score = 1/2`, and the
same index with its two documents swapped. -/
theorem C3_witness :
    ((search (fun a b : ℚ => a * b) [("d1", (2 : ℚ)), ("d2", (3 : ℚ))] 1 2
          (1 / 2)).Pairwise SearchOrder)
    ∧ (∀ d ∈ search (fun a b : ℚ => a * b) [("d1", (2 : ℚ)), ("d2", (3 : ℚ))] 1 2 (1 / 2),
        (1 / 2 : ℚ) ≤ d.score)
    ∧ ((search (fun a b : ℚ => a * b) [("d1", (2 : ℚ)), ("d2", (3 : ℚ))] 1 2
          (1 / 2)).length ≤ 2)
    ∧ (search (fun a b : ℚ => a * b) [("d2", (3 : ℚ)), ("d1", (2 : ℚ))] 1 2 (1 / 2)
        = search (fun a b : ℚ => a * b) [("d1", (2 : ℚ)), ("d2", (3 : ℚ))] 1 2 (1 / 2)) := by
  have h := C3_search_contract ℚ (fun a b => a * b) [("d1", (2 : ℚ)), ("d2", (3 : ℚ))] 1 2 (1 / 2)
  exact ⟨h.1, h.2.1, h.2.2.1,
    h.2.2.2 [("d2", (3 : ℚ)), ("d1", (2 : ℚ))] (List.Perm.swap _ _ _)⟩

/-! ### Encoder selection -/

theorem serveRequests_const (s : ProcessState) (n : Nat) :
    serveRequests s n = (List.replicate n s.encoder, s) := by
  induction n with
  | zero => rfl
  | succ n ih => simp [serveRequests, serveRequest, ih, List.replicate_succ]

/-- C6: encoder selection happens exactly once, at process startup: when the
Vector Encoder construction probe fails, the process state permanently records
the Lexical Encoder with the degradation logged exactly once; every one of any
number of subsequent requests uses the Lexical Encoder; serving requests never
changes the process state, so the probe (attempted exactly once at startup) is
never retried for any later request. -/
theorem C6_encoder_selected_once_at_startup :
    ((startupSelectEncoder false).encoder = EncoderKind.lexical)
    ∧ ((startupSelectEncoder false).degradation_log_count = 1)
    ∧ ((startupSelectEncoder false).probe_attempts = 1)
    ∧ (∀ n : Nat, (serveRequests (startupSelectEncoder false) n).1
        = List.replicate n EncoderKind.lexical)
    ∧ (∀ n : Nat, (serveRequests (startupSelectEncoder false) n).2
        = startupSelectEncoder false)
    ∧ (∀ s : ProcessState, (serveRequest s).2 = s) := by
  refine ⟨rfl, rfl, rfl, ?_, ?_, fun s => rfl⟩
  · intro n
    simp [serveRequests_const, startupSelectEncoder]
  · intro n
    simp [serveRequests_const]

/-! ### Gateway orchestrator -/

theorem try_acquire_admitted_in_flight (cfg : AdmissionConfig) (now : Nat)
    (s : AdmissionState) (h : (try_acquire cfg now s).1 = AcquireResult.Admitted) :
    (try_acquire cfg now s).2.in_flight_count = s.in_flight_count + 1 := by
  simp only [try_acquire] at h ⊢
  split_ifs at h ⊢ <;> simp_all

theorem callUpstream_timeout (timeout_s : Nat) (u : UpstreamBehavior)
    (h : timeout_s < u.duration) :
    callUpstream timeout_s u = .error .UpstreamTimeout := by
  cases u with
  | completes d text =>
    simp only [UpstreamBehavior.duration] at h
    simp [callUpstream, h]
  | fails d =>
    simp only [UpstreamBehavior.duration] at h
    simp [callUpstream, h]

/-- C7: a chat request whose prompt is missing, or empty after trimming, is
rejected with a `ValidationError` carrying a nonempty human-readable reason,
with the gateway state untouched and no admission check, retrieval or upstream
work performed; the client page likewise refuses to send any request when the
question is empty after trimming. -/
theorem C7_validation_short_circuit (cfg : GatewayConfig) (now : Nat)
    (u : UpstreamBehavior) (st : GatewayState) :
    (∀ prompt : Option String,
        (prompt = none ∨ ∃ p, prompt = some p ∧ jsTrim p = "") →
        handle_chat cfg now u st prompt
          = (.error (.ValidationError "请输入题目内容"), st, noWorkTrace))
    ∧ ("请输入题目内容" ≠ "")
    ∧ (∀ q a : String, jsTrim q = "" → submitContent q a = none) := by
  refine ⟨?_, by decide, ?_⟩
  · rintro prompt (rfl | ⟨p, rfl, hp⟩)
    · rfl
    · simp [handle_chat, hp]
  · intro q a hq
    simp [submitContent, hq]

/-- Closed witness for C7: a whitespace-only prompt against a fresh gateway. -/
theorem C7_witness :
    (handle_chat defaultGatewayConfig 0 (UpstreamBehavior.completes 1 "ok")
          ⟨initialAdmissionState, emptyCache⟩ (some "  ")
        = (.error (.ValidationError "请输入题目内容"),
            ⟨initialAdmissionState, emptyCache⟩, noWorkTrace))
    ∧ ("请输入题目内容" ≠ "")
    ∧ (submitContent "  " "ans" = none) := by
  have h := C7_validation_short_circuit defaultGatewayConfig 0
    (UpstreamBehavior.completes 1 "ok") ⟨initialAdmissionState, emptyCache⟩
  exact ⟨h.1 (some "  ") (Or.inr ⟨"  ", rfl, by decide⟩), h.2.1, h.2.2 "  " "ans" (by decide)⟩

/-- C8: when the admitted, cache-missing request's upstream call runs longer
than the configured hard timeout, the request fails with `UpstreamTimeout`, the
Admission Controller's concurrency slot is still released (the in-flight count
returns to its pre-request value), and nothing is written to the cache (its
state is exactly the post-lookup state — failed responses are never cached);
the default timeout is 60 seconds, matching the 60000 ms timeout the client
page puts on every request. -/
theorem C8_upstream_timeout_releases_slot (cfg : GatewayConfig) (now : Nat)
    (u : UpstreamBehavior) (st : GatewayState) (p : String)
    (hp : ¬ jsTrim p = "")
    (hadm : (try_acquire cfg.admission now st.admission).1 = AcquireResult.Admitted)
    (hmiss : (cacheGet cfg.cache now st.cache (cacheKey p)).1 = none)
    (hd : cfg.response_timeout_seconds < u.duration) :
    ((handle_chat cfg now u st (some p)).1 = .error .UpstreamTimeout)
    ∧ ((handle_chat cfg now u st (some p)).2.1.admission.in_flight_count
        = st.admission.in_flight_count)
    ∧ ((handle_chat cfg now u st (some p)).2.1.cache
        = (cacheGet cfg.cache now st.cache (cacheKey p)).2)
    ∧ defaultGatewayConfig.response_timeout_seconds = 60
    ∧ (∀ question answer : String, (sendRequestBody question answer).timeout_ms = 60000) := by
  have hcall := callUpstream_timeout cfg.response_timeout_seconds u hd
  have hinc := try_acquire_admitted_in_flight cfg.admission now st.admission hadm
  have hmain : handle_chat cfg now u st (some p)
      = (.error .UpstreamTimeout,
          ⟨release (try_acquire cfg.admission now st.admission).2,
            (cacheGet cfg.cache now st.cache (cacheKey p)).2⟩,
          ⟨true, true, true⟩) := by
    simp only [handle_chat]
    rw [if_neg hp]
    simp only [hadm, hmiss, hcall]
  refine ⟨by rw [hmain], ?_, by rw [hmain], rfl, fun question answer => rfl⟩
  rw [hmain]
  simp only [release]
  omega

/-- Closed witness for C8: a 61-second upstream call against the default
60-second timeout, from a fresh gateway with a one-character prompt. -/
theorem C8_witness :
    ((handle_chat defaultGatewayConfig 0 (UpstreamBehavior.completes 61 "late")
          ⟨initialAdmissionState, emptyCache⟩ (some "q")).1
        = .error .UpstreamTimeout)
    ∧ ((handle_chat defaultGatewayConfig 0 (UpstreamBehavior.completes 61 "late")
          ⟨initialAdmissionState, emptyCache⟩ (some "q")).2.1.admission.in_flight_count
        = initialAdmissionState.in_flight_count)
    ∧ ((handle_chat defaultGatewayConfig 0 (UpstreamBehavior.completes 61 "late")
          ⟨initialAdmissionState, emptyCache⟩ (some "q")).2.1.cache
        = (cacheGet defaultGatewayConfig.cache 0 emptyCache (cacheKey "q")).2)
    ∧ defaultGatewayConfig.response_timeout_seconds = 60
    ∧ (∀ question answer : String, (sendRequestBody question answer).timeout_ms = 60000) := by
  have h := C8_upstream_timeout_releases_slot defaultGatewayConfig 0
    (UpstreamBehavior.completes 61 "late") ⟨initialAdmissionState, emptyCache⟩ "q"
    (by decide) (by decide) (by decide) (by decide)
  exact h

/-! ### Mini-program client page -/

/-- C9: for every submission whose question is non-empty after trimming, the
client sends to POST `/api/chat` (with a 60000 ms timeout) exactly the body
whose `prompt` is the JSON text of the object with `题目` bound to the
untrimmed question and `答案` bound to the trimmed answer when that trim is
non-empty and `null` otherwise, and whose `format` is `"text"`; and the client
takes the success branch exactly when the HTTP status is 200 and a response
body is present. -/
theorem C9_client_request_shape (question answer : String)
    (hq : ¬ jsTrim question = "") :
    (submitContent question answer
        = some { url_path := "/api/chat", method := "POST", timeout_ms := 60000,
                 prompt := stringifyPayload question
                     (if jsTrim answer = "" then none else some (jsTrim answer)),
                 format := "text" })
    ∧ (∀ (statusCode : Nat) (data : Option (Option String)),
        successBranch statusCode data = true ↔ (statusCode = 200 ∧ data.isSome = true)) := by
  constructor
  · simp [submitContent, hq, sendRequestBody, jsOrNull]
  · intro code data
    simp [successBranch]

/-- Closed witness for C9: question `"题"` with an answer consisting of a
single full-width space U+3000, which JavaScript `trim()` strips, so the body
carries `答案: null`. -/
theorem C9_witness :
    (submitContent "题" "　"
        = some { url_path := "/api/chat", method := "POST", timeout_ms := 60000,
                 prompt := stringifyPayload "题"
                     (if jsTrim "　" = "" then none else some (jsTrim "　")),
                 format := "text" })
    ∧ (∀ (statusCode : Nat) (data : Option (Option String)),
        successBranch statusCode data = true ↔ (statusCode = 200 ∧ data.isSome = true)) :=
  C9_client_request_shape "题" "　" (by decide)

/-- C10: in the ad-enabled page, every terminal outcome of the rewarded-video
flow — load error, close (watched to the end or not), or display failure —
sets `showingAd` to `false` and invokes `sendRequest`, so the backend request
is issued regardless of the ad outcome; and in both page variants every
request ends with the `complete` callback setting `isLoading` back to `false`,
whether the request succeeded (with any status code and body) or failed. -/
theorem C10_ad_flow_always_submits :
    (∀ (s : PageState) (e : AdEvent),
        (adTerminalHandler s e).1.showingAd = false ∧ (adTerminalHandler s e).2 = true)
    ∧ (∀ (s : PageState) (o : RequestOutcome), (finishRequest s o).isLoading = false) := by
  constructor
  · intro s e
    cases e <;> exact ⟨rfl, rfl⟩
  · intro s o
    cases o <;> rfl

end Shenlun
